import Mathlib

/-!
Verification development for the chimera ingestion pipeline
(backend/internal/processing and its persistence queries).

The Go source is shallowly embedded: pure functions become Lean
functions, panics are impossible by construction (list accesses are
total with the same default values Go produces), fallible code returns
`Except String`, and the two genuinely external dependencies (the
regexp library and the persisted item store queried by the
cross-reference validator, plus the strconv / decimal / time parsing
library calls inside individual transforms) are abstracted into an
`Oracle` record so that every theorem quantifies over their behavior.
-/

namespace Chimera

/-- The dynamic values flowing through the pipeline: the Go
`interface{}` values that the transforms actually produce
(string, int64, decimal.Decimal as mantissa/exponent, time.Time as an
abstract instant where `0` is the zero value, and nil). -/
inductive Value where
  | str (s : String)
  | int (n : Int)
  | dec (mant : Int) (exp : Int)
  | date (t : Int)
  | nil
deriving DecidableEq, Inhabited

/-- Leading-whitespace drop on a character list. -/
def dropLeadingWs : List Char → List Char
  | [] => []
  | c :: cs => if c.isWhitespace then dropLeadingWs cs else c :: cs

/-- strings.TrimSpace: strip leading and trailing whitespace (the Go
function also strips the rare non-ASCII Unicode spaces; the rows and
headers handled here make that distinction irrelevant). Structurally
recursive so that concrete inputs evaluate inside the kernel. -/
def goTrimSpace (s : String) : String :=
  String.mk ((dropLeadingWs (dropLeadingWs s.data).reverse).reverse)

/-- A JSON object, as the `map[string]interface{}` the row processor
builds (association list; inserts replace existing keys). -/
abbrev JsonObj := List (String × Value)

/-- Go map read `m[k]`: the binding for `k`, if any. -/
def lookupJson (o : JsonObj) (k : String) : Option Value :=
  (List.find? (fun p => p.1 == k) o).map (fun p => p.2)

/-- Go map write `m[k] = v`: replace an existing binding or append. -/
def jsonInsert (o : JsonObj) (k : String) (v : Value) : JsonObj :=
  if List.any o (fun p => p.1 == k) then
    List.map (fun p => if p.1 == k then (k, v) else p) o
  else
    o ++ [(k, v)]

/-- ValidationRule (processing/types): the validation rules for a
single column. -/
structure ValidationRule where
  required : Bool := false
  allowZero : Option Bool := none
  enum : List String := []
  regex : String := ""
  existsInItems : String := ""
deriving DecidableEq, Inhabited

/-- ProcessingAttempt: one attempt, an ordered transform chain. -/
structure ProcessingAttempt where
  transforms : List String := []
deriving DecidableEq, Inhabited

/-- ColumnMapping: how to map and transform a single CSV column. -/
structure ColumnMapping where
  csvHeader : String := ""
  jsonField : String := ""
  mergeExcessFields : Bool := false
  attempts : List ProcessingAttempt := []
  validation : ValidationRule := {}
deriving DecidableEq, Inhabited

/-- EmbedContent: configuration for generating embeddings. -/
structure EmbedContent where
  sourceColumns : List String := []
deriving DecidableEq, Inhabited

/-- IngestionConfig: a full ingestion configuration. -/
structure IngestionConfig where
  reportType : String := ""
  itemType : String := ""
  scopeField : String := ""
  businessKey : List String := []
  embedContent : Option EmbedContent := none
  columnMappings : List ColumnMapping := []
deriving DecidableEq, Inhabited

/-- IngestionConfig.Validate: checks whether the config is valid,
returning the first applicable error (messages keep the source text,
with the Go quoting elided). -/
def IngestionConfig.Validate (c : IngestionConfig) : Except String Unit :=
  if c.reportType = "" then
    .error "config validation failed: report_type is required"
  else if c.itemType = "" then
    .error "config validation failed: item_type is required"
  else if c.scopeField = "" then
    .error "config validation failed: scope_field is required"
  else if c.businessKey.length = 0 then
    .error "config validation failed: business_key must contain at least one field"
  else if c.columnMappings.length = 0 then
    .error "config validation failed: have at least one column mapping"
  else if List.any c.columnMappings (fun m => m.csvHeader == c.scopeField) then
    .ok ()
  else
    .error s!"config validation failed: scope_field {c.scopeField} does not match any defined CSV headers"

/-- C3: `IngestionConfig.Validate` returns an error iff at least one of
the six rejection conditions holds; equivalently, it returns nil (ok)
exactly when none of them holds. -/
theorem validate_ok_iff (c : IngestionConfig) :
    c.Validate = Except.ok () ↔
      ¬ (c.reportType = "" ∨ c.itemType = "" ∨ c.scopeField = "" ∨
         c.businessKey = [] ∨ c.columnMappings = [] ∨
         (∀ m ∈ c.columnMappings, m.csvHeader ≠ c.scopeField)) := by
  unfold IngestionConfig.Validate
  push_neg
  constructor
  · intro h
    split_ifs at h with p1 p2 p3 p4 p5 p6
    rw [List.any_eq_true] at p6
    obtain ⟨m, hm, heq⟩ := p6
    refine ⟨p1, p2, p3, fun hn => p4 (by simp [hn]), fun hn => p5 (by simp [hn]),
      m, hm, by simpa using heq⟩
  · rintro ⟨h1, h2, h3, h4, h5, m, hm, hsc⟩
    have h4' : ¬ c.businessKey.length = 0 := fun hz => h4 (List.length_eq_zero.mp hz)
    have h5' : ¬ c.columnMappings.length = 0 := fun hz => h5 (List.length_eq_zero.mp hz)
    have h6 : List.any c.columnMappings (fun m => m.csvHeader == c.scopeField) = true :=
      List.any_eq_true.mpr ⟨m, hm, by simpa using hsc⟩
    rw [if_neg h1, if_neg h2, if_neg h3, if_neg h4', if_neg h5', if_pos h6]

/-- Witness for C3 at a concrete valid configuration. -/
theorem validate_ok_iff_witness :
    ({ reportType := "R", itemType := "T", scopeField := "h",
       businessKey := ["k"],
       columnMappings := [{ csvHeader := "h", jsonField := "h" }] } :
      IngestionConfig).Validate = Except.ok () :=
  (validate_ok_iff _).mpr (by decide)

/-- The external dependencies of the per-column engine: the strconv /
shopspring-decimal / time parsing library calls, the regexp library,
and the persisted item store read by the cross-reference validator.
Abstracting them lets every theorem quantify over their behavior. -/
structure Oracle where
  parseInt64 : String → Option Int
  parseDecimal : String → Option (Int × Int)
  parseDate : String → String → Option Int
  regexCompile : String → Bool
  regexMatch : String → String → Bool
  itemExists : String → String → Bool

/-- A concrete oracle for evaluating witnesses: integer parsing covers
the plain-digits fragment of strconv.ParseInt; the other dependencies
are never reached by the witness inputs. -/
def oracle0 : Oracle where
  parseInt64 := fun s => (s.toNat?).map Int.ofNat
  parseDecimal := fun _ => none
  parseDate := fun _ _ => none
  regexCompile := fun _ => false
  regexMatch := fun _ _ => false
  itemExists := fun _ _ => false

/-- TransformFunc: the signature of a transformation (value plus the
optional argument taken from the transform call). -/
abbrev TransformFunc := Value → String → Except String Value

/-- trim_space: string to string. -/
def transformTrimSpace : TransformFunc := fun input _ =>
  match input with
  | .str s => .ok (.str (goTrimSpace s))
  | _ => .error "trim_space requires a string input"

/-- to_uppercase: string to string. -/
def transformToUppercase : TransformFunc := fun input _ =>
  match input with
  | .str s => .ok (.str s.toUpper)
  | _ => .error "to_uppercase requires a string input"

/-- to_integer: strips thousands separators, empty string becomes nil
(not zero), otherwise strict base-10 parse via strconv (oracle). -/
def transformToInteger (oracle : Oracle) : TransformFunc := fun input _ =>
  match input with
  | .str s =>
    let clean := goTrimSpace (s.replace "," "")
    if clean = "" then .ok .nil
    else
      match oracle.parseInt64 clean with
      | some n => .ok (.int n)
      | none => .error s!"could not parse {s} as integer"
  | _ => .error "to_integer requires a string input"

/-- to_decimal: arbitrary-precision decimal parse (oracle), the result
carried as mantissa and exponent. -/
def transformToDecimal (oracle : Oracle) : TransformFunc := fun input _ =>
  match input with
  | .str s =>
    match oracle.parseDecimal s with
    | some me => .ok (.dec me.1 me.2)
    | none => .error s!"could not parse {s} as decimal"
  | _ => .error "to_decimal requires a string input"

/-- to_date: layout from the transform argument, default ISO calendar
date, parsed in UTC via the time library (oracle). -/
def transformToDate (oracle : Oracle) : TransformFunc := fun input arg =>
  let layout := if arg = "" then "2006-01-02" else arg
  match input with
  | .str s =>
    match oracle.parseDate layout s with
    | some t => .ok (.date t)
    | none => .error s!"could not parse date {s} with format {layout} in UTC"
  | _ => .error "to_date requires a string input"

/-- The transform registry populated by init(): a strategy lookup by
string name. -/
def transformRegistry (oracle : Oracle) : String → Option TransformFunc := fun name =>
  if name = "trim_space" then some transformTrimSpace
  else if name = "to_uppercase" then some transformToUppercase
  else if name = "to_integer" then some (transformToInteger oracle)
  else if name = "to_decimal" then some (transformToDecimal oracle)
  else if name = "to_date" then some (transformToDate oracle)
  else none

/-- The allow-zero override resolution inside validationRequired:
allowZero defaults to true and only an explicit false flips it. -/
def allowZeroOf (rule : ValidationRule) : Bool :=
  match rule.allowZero with
  | some false => false
  | _ => true

/-- The required validator: fails on nil, empty/whitespace string and
zero-value time; integer and decimal zeros fail only when allow_zero
resolves to false. -/
def validationRequired (input : Value) (rule : ValidationRule) : Except String Unit :=
  if !rule.required then .ok ()
  else
    match input with
    | .nil => .error "is a required field"
    | .str s => if goTrimSpace s = "" then .error "is a required field" else .ok ()
    | .int n =>
      if !allowZeroOf rule && n == 0 then
        .error "is a required field and zero is not an allowed value"
      else .ok ()
    | .dec m _ =>
      if !allowZeroOf rule && m == 0 then
        .error "is a required field and zero is not an allowed value"
      else .ok ()
    | .date t =>
      if t == 0 then .error "is a required field" else .ok ()

/-- The enum validator: exact string membership. -/
def validateEnum (input : Value) (rule : ValidationRule) : Except String Unit :=
  if rule.enum.isEmpty then .ok ()
  else
    match input with
    | .str s =>
      if rule.enum.contains s then .ok ()
      else .error s!"value {s} is not in the allowed list"
    | _ => .error "value must be a string to be checked against an enum"

/-- The regex validator: compile then full match, via the regexp
library (oracle). -/
def validateRegex (oracle : Oracle) (input : Value) (rule : ValidationRule) : Except String Unit :=
  let pat := rule.regex
  if pat = "" then .ok ()
  else if !oracle.regexCompile pat then
    .error s!"invalid regex pattern in config: {pat}"
  else
    match input with
    | .str s =>
      if oracle.regexMatch pat s then .ok ()
      else .error s!"value {s} does not match regex pattern {pat}"
    | _ => .error "value must be a string to be matched against a regex"

/-- The cross-reference validator: reads the persisted store (oracle);
empty strings are exempt. -/
def validateExistsInItems (oracle : Oracle) (input : Value) (rule : ValidationRule) : Except String Unit :=
  let ty := rule.existsInItems
  if ty = "" then .ok ()
  else
    match input with
    | .str s =>
      if s = "" then .ok ()
      else if oracle.itemExists ty s then .ok ()
      else .error s!"value {s} does not exist as a business_key for item_type {ty}"
    | _ => .error "exists_in_items can only validate string fields"

/-- The wrapper the validation loop puts around a failing rule. -/
def wrapRule (name msg : String) : String := s!"validation rule {name} failed: {msg}"

/-- applyValidation: an empty optional string elides every rule;
otherwise every registered validator runs (the Go map iteration order
is arbitrary; this fixes the registration order, which does not change
which values are accepted). -/
def applyValidation (oracle : Oracle) (value : Value) (rules : ValidationRule) : Except String Unit :=
  if (match value with | .str s => s = "" | _ => false) && !rules.required then .ok ()
  else
    match validationRequired value rules with
    | .error e => .error (wrapRule "required" e)
    | .ok _ =>
    match validateEnum value rules with
    | .error e => .error (wrapRule "enum" e)
    | .ok _ =>
    match validateRegex oracle value rules with
    | .error e => .error (wrapRule "regex" e)
    | .ok _ =>
    match validateExistsInItems oracle value rules with
    | .error e => .error (wrapRule "exists_in_items" e)
    | .ok _ => .ok ()

/-- C2 counterexample: with required set and no allow_zero override, a
zero integer and a zero decimal PASS the required validation (the code
defaults allow-zero to true), contradicting the claim that zero values
fail unless the rule explicitly allows zero. -/
theorem required_zero_counterexample :
    validationRequired (Value.int 0) { required := true } = Except.ok () ∧
    validationRequired (Value.dec 0 0) { required := true } = Except.ok () ∧
    ({ required := true : ValidationRule }).allowZero = none := by
  refine ⟨rfl, rfl, rfl⟩

/-- C2 amended: under a required rule, zero integers and decimals fail
the required check only when the rule explicitly sets allow_zero to
false, and pass otherwise; empty string, nil and zero-value time
always fail the required check. -/
theorem required_validation_amended (rule : ValidationRule) (h : rule.required = true) :
    (rule.allowZero = some false →
      (∃ e, validationRequired (Value.int 0) rule = Except.error e) ∧
      (∀ ex, ∃ e, validationRequired (Value.dec 0 ex) rule = Except.error e)) ∧
    (rule.allowZero ≠ some false →
      validationRequired (Value.int 0) rule = Except.ok () ∧
      (∀ ex, validationRequired (Value.dec 0 ex) rule = Except.ok ())) ∧
    (∃ e, validationRequired (Value.str "") rule = Except.error e) ∧
    (∃ e, validationRequired Value.nil rule = Except.error e) ∧
    (∃ e, validationRequired (Value.date 0) rule = Except.error e) := by
  have haz : rule.allowZero = some false → allowZeroOf rule = false := by
    intro hz; unfold allowZeroOf; rw [hz]
  refine ⟨?_, ?_, ?_, ?_, ?_⟩
  · intro hz
    have h0 : allowZeroOf rule = false := haz hz
    constructor
    · exact ⟨_, by unfold validationRequired; simp only [h, h0]; rfl⟩
    · intro ex; exact ⟨_, by unfold validationRequired; simp only [h, h0]; rfl⟩
  · intro hz
    have h0 : allowZeroOf rule = true := by
      unfold allowZeroOf
      match hv : rule.allowZero with
      | none => rfl
      | some true => rfl
      | some false => exact absurd hv hz
    constructor
    · simp [validationRequired, h, h0]
    · intro ex; simp [validationRequired, h, h0]
  · exact ⟨_, by unfold validationRequired; simp only [h]; rfl⟩
  · exact ⟨_, by unfold validationRequired; simp only [h]; rfl⟩
  · exact ⟨_, by unfold validationRequired; simp only [h]; rfl⟩

/-- Witness for C2 amended at a concrete rule with allow_zero
explicitly false. -/
theorem required_validation_amended_witness :
    ∃ e, validationRequired (Value.int 0)
      { required := true, allowZero := some false } = Except.error e :=
  ((required_validation_amended { required := true, allowZero := some false } rfl).1 rfl).1

/-- Decimal rendering for fmt %v (shopspring String): mantissa times
ten to the exponent. -/
def decToString (m e : Int) : String :=
  if 0 ≤ e then toString (m * (10 : Int) ^ e.toNat)
  else
    let n := e.natAbs
    let a := m.natAbs
    let ip := a / 10 ^ n
    let fp := a % 10 ^ n
    let fpStr := toString fp
    let pad := String.mk (List.replicate (n - fpStr.length) '0')
    (if m < 0 then "-" else "") ++ toString ip ++ "." ++ pad ++ fpStr

/-- fmt.Sprintf %v on the values the pipeline produces (the stdlib
time rendering is abstracted; no claim inspects it). -/
def goShow : Value → String
  | .str s => s
  | .int n => toString n
  | .dec m e => decToString m e
  | .date t => s!"time {t}"
  | .nil => "<nil>"

/-- strings.SplitN(call, colon, 2): transform name and optional
argument. -/
def splitNColon : List Char → List Char → String × String
  | [], acc => (String.mk acc.reverse, "")
  | c :: rest, acc =>
    if c = ':' then (String.mk acc.reverse, String.mk rest)
    else splitNColon rest (c :: acc)

def splitTransformCall (s : String) : String × String := splitNColon s.data []

def unknownTransformMsg (nm : String) : String := s!"unknown transform function: {nm}"

def transformFailedMsg (nm e : String) : String := s!"transform {nm} failed: {e}"

/-- applyTransforms: thread the value through the chain, looking each
transform up by name; unknown names and transform failures abort the
chain. -/
def applyTransformsGo (oracle : Oracle) : Value → List String → Except String Value
  | v, [] => .ok v
  | v, call :: rest =>
    let nm := (splitTransformCall call).1
    let arg := (splitTransformCall call).2
    match transformRegistry oracle nm with
    | none => .error (unknownTransformMsg nm)
    | some f =>
      match f v arg with
      | .error e => .error (transformFailedMsg nm e)
      | .ok v2 => applyTransformsGo oracle v2 rest

def applyTransforms (oracle : Oracle) (value : String) (transforms : List String) : Except String Value :=
  applyTransformsGo oracle (.str value) transforms

/-- The attempts loop of processRow: try each chain in order, first
full success wins, remembering the last error. -/
def attemptLoop (oracle : Oracle) (raw : String) : List ProcessingAttempt → String → Except String Value
  | [], lastErr => .error lastErr
  | a :: rest, _ =>
    match applyTransforms oracle raw a.transforms with
    | .ok v => .ok v
    | .error e => attemptLoop oracle raw rest e

def allFailedMsg (h raw e : String) : String :=
  s!"all transform attempts failed for column {h} with value {raw}: {e}"

/-- The transform phase for one column mapping: no attempts passes the
raw value through; otherwise the first fully successful attempt wins
and exhaustion reports the last error. -/
def transformStage (oracle : Oracle) (m : ColumnMapping) (raw : String) : Except String Value :=
  if m.attempts.isEmpty then .ok (.str raw)
  else
    match attemptLoop oracle raw m.attempts "" with
    | .ok v => .ok v
    | .error e => .error (allFailedMsg m.csvHeader raw e)

def validationFailedMsg (h vs e : String) : String :=
  s!"validation failed for column {h} with value {vs}: {e}"

/-- processRow: per column mapping in declaration order, transform
attempts then validation; the first failure fails the row (Go quoting
in error text elided). -/
def processRowGo (oracle : Oracle) (headerIdx : String → Option Nat) (record : List String) :
    List ColumnMapping → JsonObj → Except String JsonObj
  | [], data => .ok data
  | m :: rest, data =>
    let colIdx := (headerIdx m.csvHeader).getD 0
    let rawValue := if colIdx < record.length then record.getD colIdx "" else ""
    match transformStage oracle m rawValue with
    | .error e => .error e
    | .ok v =>
      match applyValidation oracle v m.validation with
      | .error e => .error (validationFailedMsg m.csvHeader (goShow v) e)
      | .ok _ => processRowGo oracle headerIdx record rest (jsonInsert data m.jsonField v)

def processRow (oracle : Oracle) (cfg : IngestionConfig) (headerIdx : String → Option Nat)
    (record : List String) : Except String JsonObj :=
  processRowGo oracle headerIdx record cfg.columnMappings []

/-- A row all of whose fields are empty or whitespace. -/
def isRowBlank (record : List String) : Bool :=
  record.all (fun field => goTrimSpace field = "")

/-- Go map write for the raw-row map (later duplicate headers win). -/
def strInsert (o : List (String × String)) (k v : String) : List (String × String) :=
  if List.any o (fun p => p.1 == k) then
    List.map (fun p => if p.1 == k then (k, v) else p) o
  else o ++ [(k, v)]

/-- The header-to-raw-value map preserved for triage. -/
def createOriginalRecordMap (record headers : List String) : List (String × String) :=
  headers.enum.foldl
    (fun acc p => strInsert acc p.2 (if p.1 < record.length then record.getD p.1 "" else "")) []

/-- The header map read: trimmed header name to index; Go map writes
make the last duplicate win. -/
def headerIndex (headers : List String) (h : String) : Option Nat :=
  ((headers.enum.filter (fun p => goTrimSpace p.2 == h)).getLast?).map (fun p => p.1)

/-- The merge-target column: the first mapping flagged
merge_excess_fields whose header is present. -/
def findMergeIndex (headers : List String) (mappings : List ColumnMapping) : Option Nat :=
  match mappings.find? (fun m => m.mergeExcessFields && (headerIndex headers m.csvHeader).isSome) with
  | some m => headerIndex headers m.csvHeader
  | none => none

/-- The ragged-row repair: rejoin the extra fields following the merge
column with the delimiter. -/
def mergeRepair (mergeIdx numHeaders : Nat) (record : List String) : List String :=
  let numExtra := record.length - numHeaders
  let endOfMerge := mergeIdx + numExtra
  let fieldsToMerge := (record.drop mergeIdx).take (numExtra + 1)
  let rejoined := String.intercalate "," fieldsToMerge
  record.take mergeIdx ++ [rejoined] ++ record.drop (endOfMerge + 1)

/-- The record the shape check sees: repaired when it is too wide and
a merge column exists, otherwise unchanged. -/
def effectiveRecord (mergeIdx : Option Nat) (numHeaders : Nat) (record : List String) : List String :=
  match mergeIdx with
  | some m => if record.length > numHeaders then mergeRepair m numHeaders record else record
  | none => record

def keyMissingMsg (f : String) : String := s!"business key field {f} is missing or nil"

/-- The business key accumulation: the first missing or nil key field
fails immediately, skipping the rest. -/
def buildKeyParts (data : JsonObj) : List String → Except String (List String)
  | [] => .ok []
  | f :: rest =>
    match lookupJson data f with
    | none => .error (keyMissingMsg f)
    | some .nil => .error (keyMissingMsg f)
    | some v => (buildKeyParts data rest).map (fun parts => goShow v :: parts)

/-- The injected embedding function. -/
abbrev Embedder := String → Except String (List Int)

/-- The embedding phase: concatenate the string forms of the source
columns (space-joined, trimmed) and call the embedder on non-empty
text; a failure triages the row. -/
def embedStage (cfg : IngestionConfig) (embedder : Option Embedder) (data : JsonObj)
    (rowNum : Nat) : Except String (Option (List Int)) :=
  match cfg.embedContent, embedder with
  | some ec, some f =>
    let text := goTrimSpace
      (String.join (ec.sourceColumns.filterMap
        (fun c => (lookupJson data c).map (fun v => goShow v ++ " "))))
    if text = "" then .ok none
    else
      match f text with
      | .error e => .error s!"Row {rowNum}: failed to generate embedding: {e}"
      | .ok vec => .ok (some vec)
  | _, _ => .ok none

/-- repository.Item as the processor constructs it (the embedding is
an abstract vector; json.Marshal of the processed map is the identity
here since it cannot fail on these value shapes). -/
structure Item where
  itemType : String
  scope : String
  businessKey : String
  status : String
  customProperties : JsonObj
  embedding : Option (List Int)
deriving DecidableEq, Inhabited

/-- A row that failed processing and needs human review. -/
structure TriageRow where
  originalRecord : List (String × String)
  failureReason : String
deriving DecidableEq, Inhabited

/-- The outcome of a file processing operation. -/
structure ProcessingResult where
  successfulItems : List Item
  triageRows : List TriageRow
  blankRowsDiscarded : Nat
deriving DecidableEq, Inhabited

/-- The three disjoint per-record outcomes of the record loop. -/
inductive RecordOutcome where
  | success (item : Item)
  | triage (row : TriageRow)
  | blank
deriving DecidableEq, Inhabited

def applyOutcome (res : ProcessingResult) : RecordOutcome → ProcessingResult
  | .success it => { res with successfulItems := res.successfulItems ++ [it] }
  | .triage t => { res with triageRows := res.triageRows ++ [t] }
  | .blank => { res with blankRowsDiscarded := res.blankRowsDiscarded + 1 }

def shapeMsg (got want : Nat) : String :=
  s!"Row as {got} fields, but header has {want}. Triage required."

def scopeMissingMsg (f : String) : String := s!"scope field {f} is missing or nil"

def scopeNotStringMsg (f : String) : String := s!"scope field {f} is not a string"

/-- The record-loop body after the repair step: shape check, blank
check, row processing, embedding, scope and business key resolution;
exactly one outcome per record. -/
def classifyShaped (oracle : Oracle) (cfg : IngestionConfig) (embedder : Option Embedder)
    (headers : List String) (scopeJSONField : String)
    (i : Nat) (record : List String) : RecordOutcome :=
  if record.length ≠ headers.length then
    .triage ⟨createOriginalRecordMap record headers, shapeMsg record.length headers.length⟩
  else if isRowBlank record then .blank
  else
    match processRow oracle cfg (headerIndex headers) record with
    | .error e => .triage ⟨createOriginalRecordMap record headers, e⟩
    | .ok data =>
      match embedStage cfg embedder data (i + 2) with
      | .error e => .triage ⟨createOriginalRecordMap record headers, e⟩
      | .ok emb =>
        match lookupJson data scopeJSONField with
        | none => .triage ⟨createOriginalRecordMap record headers, scopeMissingMsg scopeJSONField⟩
        | some Value.nil => .triage ⟨createOriginalRecordMap record headers, scopeMissingMsg scopeJSONField⟩
        | some (Value.str s) =>
          match buildKeyParts data cfg.businessKey with
          | .error msg => .triage ⟨createOriginalRecordMap record headers, msg⟩
          | .ok parts =>
            .success ⟨cfg.itemType, s, String.intercalate "-" parts, "active", data, emb⟩
        | some _ => .triage ⟨createOriginalRecordMap record headers, scopeNotStringMsg scopeJSONField⟩

/-- One iteration of the record loop: apply the ragged-row repair and
classify the resulting record. -/
def classifyRecord (oracle : Oracle) (cfg : IngestionConfig) (embedder : Option Embedder)
    (headers : List String) (mergeIdx : Option Nat) (scopeJSONField : String)
    (i : Nat) (record0 : List String) : RecordOutcome :=
  classifyShaped oracle cfg embedder headers scopeJSONField i
    (effectiveRecord mergeIdx headers.length record0)

def processLoop (oracle : Oracle) (cfg : IngestionConfig) (embedder : Option Embedder)
    (headers : List String) (mergeIdx : Option Nat) (scopeJSONField : String) :
    Nat → ProcessingResult → List (List String) → ProcessingResult
  | _, res, [] => res
  | i, res, r :: rest =>
    processLoop oracle cfg embedder headers mergeIdx scopeJSONField (i + 1)
      (applyOutcome res (classifyRecord oracle cfg embedder headers mergeIdx scopeJSONField i r)) rest

def missingHeaderMsg (h : String) : String :=
  s!"configuration error: CSV file is missing required header {h}"

def noScopeMappingMsg (sf : String) : String :=
  s!"config validation error: could not find a column mapping for the specified scope_field {sf}"

/-- The JSON field the scope is read from: the first mapping whose
header equals scope_field. -/
def scopeJSONFieldOf (cfg : IngestionConfig) : String :=
  ((cfg.columnMappings.find? (fun m => m.csvHeader == cfg.scopeField)).map
    (fun m => m.jsonField)).getD ""

/-- Process: the record pipeline after the csv library has produced
the header row and the data records. Fails fast when a mapped header
is absent or the scope field has no mapping; otherwise classifies
every record. -/
def process (oracle : Oracle) (cfg : IngestionConfig) (embedder : Option Embedder)
    (headers : List String) (records : List (List String)) : Except String ProcessingResult :=
  match cfg.columnMappings.find? (fun m => (headerIndex headers m.csvHeader).isNone) with
  | some m => .error (missingHeaderMsg m.csvHeader)
  | none =>
    if scopeJSONFieldOf cfg = "" then .error (noScopeMappingMsg cfg.scopeField)
    else
      .ok (processLoop oracle cfg embedder headers (findMergeIndex headers cfg.columnMappings)
        (scopeJSONFieldOf cfg) 0 ⟨[], [], 0⟩ records)

/-- Applying any outcome grows exactly one of the three counters. -/
theorem applyOutcome_total (res : ProcessingResult) (o : RecordOutcome) :
    (applyOutcome res o).successfulItems.length + (applyOutcome res o).triageRows.length +
        (applyOutcome res o).blankRowsDiscarded =
      res.successfulItems.length + res.triageRows.length + res.blankRowsDiscarded + 1 := by
  cases o <;> simp [applyOutcome] <;> omega

/-- The record loop adds exactly the number of records across the
three counters. -/
theorem processLoop_total (oracle : Oracle) (cfg : IngestionConfig) (embedder : Option Embedder)
    (headers : List String) (mergeIdx : Option Nat) (sjf : String) :
    ∀ (records : List (List String)) (i : Nat) (res : ProcessingResult),
      (processLoop oracle cfg embedder headers mergeIdx sjf i res records).successfulItems.length +
          (processLoop oracle cfg embedder headers mergeIdx sjf i res records).triageRows.length +
          (processLoop oracle cfg embedder headers mergeIdx sjf i res records).blankRowsDiscarded =
        res.successfulItems.length + res.triageRows.length + res.blankRowsDiscarded +
          records.length := by
  intro records
  induction records with
  | nil => intro i res; simp [processLoop]
  | cons r rest ih =>
    intro i res
    rw [processLoop, ih]
    rw [applyOutcome_total]
    simp
    omega

/-- C1: every data row lands in exactly one of the three outcomes, so
a nil-error Process run satisfies
rows read = successful items + triage rows + blank rows discarded. -/
theorem process_row_accounting (oracle : Oracle) (cfg : IngestionConfig)
    (embedder : Option Embedder) (headers : List String) (records : List (List String))
    (res : ProcessingResult)
    (h : process oracle cfg embedder headers records = Except.ok res) :
    records.length =
      res.successfulItems.length + res.triageRows.length + res.blankRowsDiscarded := by
  unfold process at h
  cases hf : cfg.columnMappings.find? (fun m => (headerIndex headers m.csvHeader).isNone) with
  | some m => rw [hf] at h; exact absurd h (by simp)
  | none =>
    rw [hf] at h
    split_ifs at h
    injection h with h2
    rw [← h2]
    rw [processLoop_total]
    simp

/-- Witness for C1: a one-mapping config over one data row. -/
theorem process_row_accounting_witness :
    ∃ res, process oracle0
        { reportType := "R", itemType := "T", scopeField := "a", businessKey := ["a"],
          columnMappings := [{ csvHeader := "a", jsonField := "a" }] }
        none ["a"] [["x"]] = Except.ok res ∧
      1 = res.successfulItems.length + res.triageRows.length + res.blankRowsDiscarded := by
  refine ⟨_, rfl, ?_⟩
  exact process_row_accounting oracle0
    { reportType := "R", itemType := "T", scopeField := "a", businessKey := ["a"],
      columnMappings := [{ csvHeader := "a", jsonField := "a" }] }
    none ["a"] [["x"]] _ rfl

/-- The attempts loop returns the first fully successful chain. -/
theorem attemptLoop_first_ok (oracle : Oracle) (raw : String) :
    ∀ (attempts : List ProcessingAttempt) (j : Nat) (a : ProcessingAttempt) (v : Value)
    (lastErr : String),
      attempts[j]? = some a →
      (∀ k b, k < j → attempts[k]? = some b →
        ∃ e, applyTransforms oracle raw b.transforms = Except.error e) →
      applyTransforms oracle raw a.transforms = Except.ok v →
      attemptLoop oracle raw attempts lastErr = Except.ok v := by
  intro attempts
  induction attempts with
  | nil => intro j a v lastErr hj; simp at hj
  | cons x xs ih =>
    intro j a v lastErr hj hprev hok
    match j with
    | 0 =>
      simp at hj
      subst hj
      unfold attemptLoop
      rw [hok]
    | j + 1 =>
      obtain ⟨e0, he0⟩ := hprev 0 x (Nat.succ_pos j) (by simp)
      unfold attemptLoop
      rw [he0]
      exact ih j a v e0 (by simpa using hj)
        (fun k b hk hb => hprev (k + 1) b (by omega) (by simpa using hb)) hok

/-- When every attempt fails, the loop surfaces the last error. -/
theorem attemptLoop_all_fail (oracle : Oracle) (raw : String) :
    ∀ (attempts : List ProcessingAttempt) (last : ProcessingAttempt) (e lastErr : String),
      attempts.getLast? = some last →
      (∀ b ∈ attempts, ∃ e0, applyTransforms oracle raw b.transforms = Except.error e0) →
      applyTransforms oracle raw last.transforms = Except.error e →
      attemptLoop oracle raw attempts lastErr = Except.error e := by
  intro attempts
  induction attempts with
  | nil => intro last e lastErr hl; simp at hl
  | cons x xs ih =>
    intro last e lastErr hl hall hlast
    match xs with
    | [] =>
      simp at hl
      subst hl
      unfold attemptLoop
      rw [hlast]
      rfl
    | y :: ys =>
      obtain ⟨e0, he0⟩ := hall x (by simp)
      unfold attemptLoop
      rw [he0]
      exact ih last e e0 (by simpa using hl)
        (fun b hb => hall b (by simp [hb])) hlast

/-- C4: with no attempts the raw field passes through unchanged; with
attempts, the first attempt whose whole chain succeeds binds the
value, earlier failing attempts being discarded; when every attempt
fails the row fails with an error wrapping the last attempt's
error. -/
theorem transform_attempts_semantics (oracle : Oracle) (m : ColumnMapping) (raw : String) :
    (m.attempts = [] → transformStage oracle m raw = Except.ok (Value.str raw)) ∧
    (∀ (j : Nat) (a : ProcessingAttempt) (v : Value), m.attempts[j]? = some a →
      (∀ (k : Nat) (b : ProcessingAttempt), k < j → m.attempts[k]? = some b →
        ∃ e, applyTransforms oracle raw b.transforms = Except.error e) →
      applyTransforms oracle raw a.transforms = Except.ok v →
      transformStage oracle m raw = Except.ok v) ∧
    (∀ (last : ProcessingAttempt) (e : String), m.attempts.getLast? = some last →
      (∀ b ∈ m.attempts, ∃ e0, applyTransforms oracle raw b.transforms = Except.error e0) →
      applyTransforms oracle raw last.transforms = Except.error e →
      transformStage oracle m raw = Except.error (allFailedMsg m.csvHeader raw e)) := by
  refine ⟨?_, ?_, ?_⟩
  · intro h
    unfold transformStage
    rw [h]
    rfl
  · intro j a v hj hprev hok
    have hne : m.attempts.isEmpty = false := by
      cases hatt : m.attempts with
      | nil => rw [hatt] at hj; simp at hj
      | cons x xs => rfl
    unfold transformStage
    rw [hne, attemptLoop_first_ok oracle raw m.attempts j a v "" hj hprev hok]
    try rfl
  · intro last e hl hall hlast
    have hne : m.attempts.isEmpty = false := by
      cases hatt : m.attempts with
      | nil => rw [hatt] at hl; exact Option.noConfusion hl
      | cons x xs => rfl
    unfold transformStage
    rw [hne, attemptLoop_all_fail oracle raw m.attempts last e "" hl hall hlast]
    try rfl

/-- Witness for C4: the second attempt succeeds after an unknown-name
first attempt, binding the trimmed value. -/
theorem transform_attempts_semantics_witness :
    transformStage oracle0
      { csvHeader := "c", jsonField := "c",
        attempts := [⟨["bogus"]⟩, ⟨["trim_space"]⟩] } " x " = Except.ok (Value.str "x") := by
  refine (transform_attempts_semantics oracle0
    { csvHeader := "c", jsonField := "c",
      attempts := [⟨["bogus"]⟩, ⟨["trim_space"]⟩] } " x ").2.1 1 ⟨["trim_space"]⟩
    (Value.str "x") rfl ?_ rfl
  intro k b hk hb
  match k with
  | 0 =>
    simp at hb
    subst hb
    exact ⟨_, rfl⟩
  | k + 1 => omega

/-- C9 counterexample: a mapping whose first attempt names an unknown
transform is not a configuration-level failure and can be silently
discarded: the row is classified successful via the second attempt. -/
theorem unknown_transform_counterexample :
    transformRegistry oracle0 "bogus" = none ∧
    applyTransforms oracle0 "  x " ["bogus"] =
      Except.error (unknownTransformMsg "bogus") ∧
    (process oracle0
      { reportType := "R", itemType := "T", scopeField := "a", businessKey := ["a"],
        columnMappings :=
          [{ csvHeader := "a", jsonField := "a",
             attempts := [⟨["bogus"]⟩, ⟨["trim_space"]⟩] }] }
      none ["a"] [["  x "]]).map
        (fun r => (r.successfulItems.length, r.triageRows.length)) = Except.ok (1, 0) :=
  ⟨rfl, rfl, rfl⟩

/-- C9 amended: an unknown transform name fails the enclosing attempt
with an unknown-transform error on its first use; when it is the only
attempt the row-level error wraps and reports it (it is a row-scoped
failure, not silently ignored); only a later succeeding attempt
discards it. -/
theorem unknown_transform_amended (oracle : Oracle) (m : ColumnMapping) (raw call : String)
    (rest : List String)
    (hname : transformRegistry oracle (splitTransformCall call).1 = none) :
    applyTransforms oracle raw (call :: rest) =
      Except.error (unknownTransformMsg (splitTransformCall call).1) ∧
    (m.attempts = [⟨[call]⟩] →
      transformStage oracle m raw =
        Except.error (allFailedMsg m.csvHeader raw
          (unknownTransformMsg (splitTransformCall call).1))) := by
  have h1 : applyTransforms oracle raw (call :: rest) =
      Except.error (unknownTransformMsg (splitTransformCall call).1) := by
    unfold applyTransforms applyTransformsGo
    simp only [hname]
  refine ⟨h1, ?_⟩
  intro hatt
  unfold transformStage
  rw [hatt]
  have h2 : applyTransforms oracle raw [call] =
      Except.error (unknownTransformMsg (splitTransformCall call).1) := by
    unfold applyTransforms applyTransformsGo
    simp only [hname]
  show (match attemptLoop oracle raw [⟨[call]⟩] "" with
    | .ok v => Except.ok v
    | .error e => Except.error (allFailedMsg m.csvHeader raw e)) = _
  unfold attemptLoop
  rw [h2]
  rfl

/-- Witness for C9 amended at a concrete unknown name. -/
theorem unknown_transform_amended_witness :
    transformStage oracle0 { csvHeader := "c", jsonField := "c", attempts := [⟨["bogus"]⟩] } "x" =
      Except.error (allFailedMsg "c" "x" (unknownTransformMsg "bogus")) :=
  (unknown_transform_amended oracle0
    { csvHeader := "c", jsonField := "c", attempts := [⟨["bogus"]⟩] } "x" "bogus" [] rfl).2 rfl

/-- An index returned by the header map is an index into the header
row. -/
theorem headerIndex_lt (headers : List String) (h : String) (i : Nat)
    (hi : headerIndex headers h = some i) : i < headers.length := by
  unfold headerIndex at hi
  rw [Option.map_eq_some'] at hi
  obtain ⟨p, hp, hfst⟩ := hi
  have hmem : p ∈ headers.enum.filter (fun q => goTrimSpace q.2 == h) := by
    obtain ⟨hne, heq⟩ := List.mem_getLast?_eq_getLast (by rw [Option.mem_def]; exact hp)
    rw [heq]
    exact List.getLast_mem hne
  have henum : p ∈ headers.enum := List.mem_of_mem_filter hmem
  have hlt := List.fst_lt_of_mem_enum henum
  omega

/-- The merge column index is an index into the header row. -/
theorem findMergeIndex_lt (headers : List String) (mappings : List ColumnMapping) (m : Nat)
    (hm : findMergeIndex headers mappings = some m) : m < headers.length := by
  unfold findMergeIndex at hm
  cases hf : mappings.find?
      (fun mp => mp.mergeExcessFields && (headerIndex headers mp.csvHeader).isSome) with
  | none => rw [hf] at hm; exact Option.noConfusion hm
  | some mp => rw [hf] at hm; exact headerIndex_lt headers mp.csvHeader m hm

/-- C5: a row two fields too wide, with a declared merge column,
repairs to exactly header width: the merge column's field becomes the
three original fields there joined by the delimiter, fields before the
merge column are unchanged, and fields after the merged span shift
down by two. -/
theorem merge_repair_semantics (headers : List String) (mappings : List ColumnMapping)
    (record : List String) (m : Nat)
    (hm : findMergeIndex headers mappings = some m)
    (hlen : record.length = headers.length + 2) :
    (effectiveRecord (some m) headers.length record).length = headers.length ∧
    (effectiveRecord (some m) headers.length record)[m]? =
      some (String.intercalate "," ((record.drop m).take 3)) ∧
    (∀ k, k < m → (effectiveRecord (some m) headers.length record)[k]? = record[k]?) ∧
    (∀ k, m < k → k < headers.length →
      (effectiveRecord (some m) headers.length record)[k]? = record[k + 2]?) := by
  have hmlt : m < headers.length := findMergeIndex_lt headers mappings m hm
  have hgt : record.length > headers.length := by omega
  have hsub : record.length - headers.length = 2 := by omega
  have heff : effectiveRecord (some m) headers.length record =
      record.take m ++
        [String.intercalate "," ((record.drop m).take (record.length - headers.length + 1))] ++
        record.drop (m + (record.length - headers.length) + 1) := by
    unfold effectiveRecord mergeRepair
    dsimp only
    rw [if_pos hgt]
  rw [hsub] at heff
  have hA : (record.take m).length = m := by rw [List.length_take]; omega
  refine ⟨?_, ?_, ?_, ?_⟩
  · rw [heff]
    simp only [List.length_append, List.length_take, List.length_drop,
      List.length_singleton]
    omega
  · rw [heff, List.append_assoc, List.getElem?_append_right (le_of_eq hA), hA]
    simp
  · intro k hk
    rw [heff, List.append_assoc, List.getElem?_append, if_pos (by omega : k < (record.take m).length),
      List.getElem?_take, if_pos hk]
  · intro k hk1 hk2
    rw [heff, List.append_assoc,
      List.getElem?_append_right (by omega : (record.take m).length ≤ k),
      List.getElem?_append_right (by simp only [List.length_singleton, List.length_take]; omega :
        ([String.intercalate "," ((record.drop m).take (2 + 1))]).length ≤
          k - (record.take m).length),
      List.getElem?_drop]
    congr 1
    simp only [hA, List.length_singleton]
    omega

/-- Witness for C5: headers of width three, merge column at index one,
record of width five. -/
theorem merge_repair_semantics_witness :
    (effectiveRecord (some 1) 3 ["1", "x", "y", "z", "5"]).length = 3 ∧
    (effectiveRecord (some 1) 3 ["1", "x", "y", "z", "5"])[1]? = some "x,y,z" := by
  have h := merge_repair_semantics ["a", "b", "c"]
    [{ csvHeader := "b", jsonField := "b", mergeExcessFields := true }]
    ["1", "x", "y", "z", "5"] 1 rfl rfl
  exact ⟨h.1, h.2.1⟩

/-- C10: a row all of whose fields are blank but whose width (after
any merge repair) differs from the header count is triaged as a shape
mismatch, not counted as a discarded blank: the width check precedes
the blank check. -/
theorem blank_misshapen_row_triage (oracle : Oracle) (cfg : IngestionConfig)
    (embedder : Option Embedder) (headers : List String) (mergeIdx : Option Nat)
    (sjf : String) (i : Nat) (record : List String)
    (hblank : isRowBlank (effectiveRecord mergeIdx headers.length record) = true)
    (hlen : (effectiveRecord mergeIdx headers.length record).length ≠ headers.length) :
    classifyRecord oracle cfg embedder headers mergeIdx sjf i record =
      RecordOutcome.triage
        ⟨createOriginalRecordMap (effectiveRecord mergeIdx headers.length record) headers,
         shapeMsg (effectiveRecord mergeIdx headers.length record).length headers.length⟩ ∧
    (∀ res : ProcessingResult,
      (applyOutcome res
        (classifyRecord oracle cfg embedder headers mergeIdx sjf i record)).blankRowsDiscarded =
        res.blankRowsDiscarded) := by
  have hcl : classifyRecord oracle cfg embedder headers mergeIdx sjf i record =
      RecordOutcome.triage
        ⟨createOriginalRecordMap (effectiveRecord mergeIdx headers.length record) headers,
         shapeMsg (effectiveRecord mergeIdx headers.length record).length headers.length⟩ := by
    unfold classifyRecord classifyShaped
    rw [if_pos hlen]
  refine ⟨hcl, ?_⟩
  intro res
  rw [hcl]
  simp [applyOutcome]

/-- Witness for C10: a blank three-field row against a two-column
header triages with a shape mismatch and leaves the blank counter
unchanged. -/
theorem blank_misshapen_row_triage_witness :
    classifyRecord oracle0 { reportType := "R" } none ["a", "b"] none "a" 0 ["", "", ""] =
      RecordOutcome.triage
        ⟨createOriginalRecordMap (effectiveRecord none 2 ["", "", ""]) ["a", "b"],
         shapeMsg 3 2⟩ :=
  (blank_misshapen_row_triage oracle0 { reportType := "R" } none ["a", "b"] none "a" 0
    ["", "", ""] rfl (by decide)).1

/-- A record already at header width is untouched by the repair. -/
theorem effectiveRecord_of_len_eq (mergeIdx : Option Nat) (numHeaders : Nat)
    (record : List String) (h : record.length = numHeaders) :
    effectiveRecord mergeIdx numHeaders record = record := by
  unfold effectiveRecord
  cases mergeIdx with
  | none => rfl
  | some m =>
    dsimp only
    rw [if_neg (by omega : ¬ record.length > numHeaders)]

/-- When every key field is present and non-nil, the parts are the
shown values in declared order. -/
theorem buildKeyParts_all (data : JsonObj) :
    ∀ fields : List String,
      (∀ f ∈ fields, ∃ v, lookupJson data f = some v ∧ v ≠ Value.nil) →
      buildKeyParts data fields =
        Except.ok (fields.map (fun f => goShow ((lookupJson data f).getD Value.nil))) := by
  intro fields
  induction fields with
  | nil => intro _; rfl
  | cons f rest ih =>
    intro hall
    obtain ⟨v, hv, hnn⟩ := hall f (by simp)
    unfold buildKeyParts
    rw [hv]
    cases v with
    | nil => exact absurd rfl hnn
    | str s =>
      rw [ih (fun g hg => hall g (List.mem_cons_of_mem f hg))]
      simp [hv, Except.map]
    | int n =>
      rw [ih (fun g hg => hall g (List.mem_cons_of_mem f hg))]
      simp [hv, Except.map]
    | dec mm ee =>
      rw [ih (fun g hg => hall g (List.mem_cons_of_mem f hg))]
      simp [hv, Except.map]
    | date t =>
      rw [ih (fun g hg => hall g (List.mem_cons_of_mem f hg))]
      simp [hv, Except.map]

/-- The first missing or nil key field produces the error, later
fields never being evaluated. -/
theorem buildKeyParts_first_missing (data : JsonObj) :
    ∀ (fields : List String) (j : Nat) (f : String),
      fields[j]? = some f →
      (lookupJson data f = none ∨ lookupJson data f = some Value.nil) →
      (∀ (k : Nat) (g : String), k < j → fields[k]? = some g →
        ∃ v, lookupJson data g = some v ∧ v ≠ Value.nil) →
      buildKeyParts data fields = Except.error (keyMissingMsg f) := by
  intro fields
  induction fields with
  | nil => intro j f hj; simp at hj
  | cons x rest ih =>
    intro j f hj hmiss hprev
    match j with
    | 0 =>
      simp at hj
      subst hj
      unfold buildKeyParts
      rcases hmiss with hm | hm <;> rw [hm]
    | j + 1 =>
      obtain ⟨v, hv, hnn⟩ := hprev 0 x (Nat.succ_pos j) (by simp)
      unfold buildKeyParts
      rw [hv]
      have hrest : buildKeyParts data rest = Except.error (keyMissingMsg f) :=
        ih j f (by simpa using hj) hmiss
          (fun k g hk hg => hprev (k + 1) g (by omega) (by simpa using hg))
      cases v with
      | nil => exact absurd rfl hnn
      | str s => rw [hrest]; rfl
      | int n => rw [hrest]; rfl
      | dec mm ee => rw [hrest]; rfl
      | date t => rw [hrest]; rfl

/-- C8: for a row that reaches key resolution, the business key is the
dash-joined string of the shown key field values in declared order;
the first missing or nil key field triages the row immediately,
producing exactly one triage entry naming that field, later key
fields never being evaluated. -/
theorem business_key_resolution (oracle : Oracle) (cfg : IngestionConfig)
    (embedder : Option Embedder) (headers : List String) (mergeIdx : Option Nat)
    (sjf : String) (i : Nat) (record : List String) (data : JsonObj)
    (emb : Option (List Int)) (s : String)
    (hlen : record.length = headers.length)
    (hblank : isRowBlank record = false)
    (hrow : processRow oracle cfg (headerIndex headers) record = Except.ok data)
    (hemb : embedStage cfg embedder data (i + 2) = Except.ok emb)
    (hscope : lookupJson data sjf = some (Value.str s)) :
    ((∀ f ∈ cfg.businessKey, ∃ v, lookupJson data f = some v ∧ v ≠ Value.nil) →
      classifyRecord oracle cfg embedder headers mergeIdx sjf i record =
        RecordOutcome.success ⟨cfg.itemType, s,
          String.intercalate "-" (cfg.businessKey.map
            (fun f => goShow ((lookupJson data f).getD Value.nil))),
          "active", data, emb⟩) ∧
    (∀ (j : Nat) (f : String), cfg.businessKey[j]? = some f →
      (lookupJson data f = none ∨ lookupJson data f = some Value.nil) →
      (∀ (k : Nat) (g : String), k < j → cfg.businessKey[k]? = some g →
        ∃ v, lookupJson data g = some v ∧ v ≠ Value.nil) →
      ∀ res : ProcessingResult,
        processLoop oracle cfg embedder headers mergeIdx sjf i res [record] =
          { res with triageRows := res.triageRows ++
              [⟨createOriginalRecordMap record headers, keyMissingMsg f⟩] }) := by
  have heq := effectiveRecord_of_len_eq mergeIdx headers.length record hlen
  have hcommon : classifyRecord oracle cfg embedder headers mergeIdx sjf i record =
      (match buildKeyParts data cfg.businessKey with
        | .error msg => RecordOutcome.triage ⟨createOriginalRecordMap record headers, msg⟩
        | .ok parts => RecordOutcome.success
            ⟨cfg.itemType, s, String.intercalate "-" parts, "active", data, emb⟩) := by
    unfold classifyRecord
    rw [heq]
    unfold classifyShaped
    rw [if_neg (by omega : ¬ record.length ≠ headers.length)]
    rw [if_neg (by simp [hblank] : ¬ isRowBlank record = true)]
    rw [hrow]
    dsimp only
    rw [hemb]
    dsimp only
    rw [hscope]
  constructor
  · intro hall
    rw [hcommon, buildKeyParts_all data cfg.businessKey hall]
  · intro j f hj hmiss hprev res
    have hstep : processLoop oracle cfg embedder headers mergeIdx sjf i res [record] =
        applyOutcome res (classifyRecord oracle cfg embedder headers mergeIdx sjf i record) :=
      rfl
    rw [hstep, hcommon, buildKeyParts_first_missing data cfg.businessKey j f hj hmiss hprev]
    rfl

/-- Witness for C8: a row with three mapped columns whose business key
references one present field and two unmapped ones is triaged once, at
the first missing field. -/
theorem business_key_resolution_witness :
    processLoop oracle0
      { reportType := "R", itemType := "T", scopeField := "a",
        businessKey := ["a", "x", "y"],
        columnMappings := [{ csvHeader := "a", jsonField := "a" },
          { csvHeader := "b", jsonField := "b" }, { csvHeader := "c", jsonField := "c" }] }
      none ["a", "b", "c"] none "a" 0 ⟨[], [], 0⟩ [["1", "2", "3"]] =
      { successfulItems := [],
        triageRows := [] ++
          [⟨createOriginalRecordMap ["1", "2", "3"] ["a", "b", "c"], keyMissingMsg "x"⟩],
        blankRowsDiscarded := 0 } := by
  refine (business_key_resolution oracle0
    { reportType := "R", itemType := "T", scopeField := "a",
      businessKey := ["a", "x", "y"],
      columnMappings := [{ csvHeader := "a", jsonField := "a" },
        { csvHeader := "b", jsonField := "b" }, { csvHeader := "c", jsonField := "c" }] }
    none ["a", "b", "c"] none "a" 0 ["1", "2", "3"]
    [("a", Value.str "1"), ("b", Value.str "2"), ("c", Value.str "3")] none "1"
    rfl rfl rfl rfl rfl).2 1 "x" rfl (Or.inl rfl) ?_ ⟨[], [], 0⟩
  intro k g hk hg
  match k with
  | 0 =>
    simp at hg
    subst hg
    exact ⟨Value.str "1", rfl, by decide⟩
  | k + 1 => omega

/-- jsonb `old || new`: every key of either object, the right side
winning on overlap (modelled as an association list whose lookups
realise the jsonb object semantics). -/
def jsonbConcat (old new : JsonObj) : JsonObj :=
  old.filter (fun p => !(List.any new (fun q => q.1 == p.1))) ++ new

/-- Unfolding lookup over a cons cell. -/
theorem lookupJson_cons (p : String × Value) (rest : JsonObj) (k : String) :
    lookupJson (p :: rest) k = if p.1 == k then some p.2 else lookupJson rest k := by
  cases hpk : p.1 == k with
  | true => simp [lookupJson, List.find?, hpk]
  | false => simp [lookupJson, List.find?, hpk]

/-- A key carried by some member of the object does not look up to
none. -/
theorem lookupJson_isSome_of_mem (q : String × Value) (k : String)
    (hqk : (q.1 == k) = true) :
    ∀ o : JsonObj, q ∈ o → lookupJson o k ≠ none := by
  intro o
  induction o with
  | nil => intro hq; cases hq
  | cons p rest ih =>
    intro hq
    rw [lookupJson_cons]
    cases hpk : p.1 == k with
    | true => simp
    | false =>
      rw [if_neg (by simp)]
      rcases List.mem_cons.mp hq with hq1 | hq2
      · rw [← hq1] at hpk; rw [hqk] at hpk; exact Bool.noConfusion hpk
      · exact ih hq2

/-- An object with no binding for a key looks it up as none. -/
theorem lookupJson_none_of_any_false (o : JsonObj) (k : String)
    (h : List.any o (fun p => p.1 == k) = false) : lookupJson o k = none := by
  unfold lookupJson
  rw [Option.map_eq_none', List.find?_eq_none]
  rw [List.any_eq_false] at h
  exact fun x hx => by simpa using h x hx

/-- jsonb concatenation looks up through the new object first. -/
theorem jsonbConcat_lookup (k : String) :
    ∀ old new : JsonObj, lookupJson (jsonbConcat old new) k =
      match lookupJson new k with
      | some v => some v
      | none => lookupJson old k := by
  intro old
  induction old with
  | nil =>
    intro new
    show lookupJson (List.filter _ [] ++ new) k = _
    rw [List.filter_nil, List.nil_append]
    cases hn : lookupJson new k with
    | none => rfl
    | some v => rfl
  | cons p rest ih =>
    intro new
    show lookupJson (List.filter _ (p :: rest) ++ new) k = _
    rw [List.filter_cons]
    cases hpred : !(List.any new (fun q => q.1 == p.1)) with
    | false =>
      rw [if_neg (by simp [hpred])]
      rw [show (List.filter (fun p0 => !(List.any new (fun q => q.1 == p0.1))) rest ++ new) =
        jsonbConcat rest new from rfl, ih new]
      cases hn : lookupJson new k with
      | some v => rfl
      | none =>
        have hpk : (p.1 == k) = false := by
          cases hpk0 : p.1 == k with
          | false => rfl
          | true =>
            have hp1 : p.1 = k := by simpa using hpk0
            have hany : List.any new (fun q => q.1 == p.1) = true := by
              simpa using hpred
            rw [List.any_eq_true] at hany
            obtain ⟨q, hq, hqk⟩ := hany
            exact absurd hn
              (lookupJson_isSome_of_mem q k (by simpa [hp1] using hqk) new hq)
        rw [lookupJson_cons, if_neg (by simp [hpk])]
    | true =>
      rw [if_pos rfl]
      rw [List.cons_append]
      rw [lookupJson_cons, lookupJson_cons]
      cases hpk : p.1 == k with
      | true =>
        rw [if_pos rfl, if_pos rfl]
        have hp1 : p.1 = k := by simpa using hpk
        have hnone : lookupJson new k = none := by
          apply lookupJson_none_of_any_false
          have hz : List.any new (fun q => q.1 == p.1) = false := by simpa using hpred
          simpa [hp1] using hz
        rw [hnone]
      | false =>
        rw [if_neg (by simp), if_neg (by simp)]
        rw [show (List.filter (fun p0 => !(List.any new (fun q => q.1 == p0.1))) rest ++ new) =
          jsonbConcat rest new from rfl, ih new]

/-- UpsertItems for one staged row: the INSERT takes its status from
the SELECT literal active; on (item_type, business_key) conflict the
stored row takes status, scope and embedding from the excluded row and
merges custom_properties. -/
def upsertOne (store : List Item) (new : Item) : List Item :=
  if List.any store
      (fun old => old.itemType == new.itemType && old.businessKey == new.businessKey) then
    List.map (fun old =>
      if old.itemType == new.itemType && old.businessKey == new.businessKey then
        { old with
          status := "active", scope := new.scope,
          customProperties := jsonbConcat old.customProperties new.customProperties,
          embedding := new.embedding }
      else old) store
  else store ++ [{ new with status := "active" }]

/-- UpsertItems over the whole staging batch. -/
def upsertItems (store : List Item) (staged : List Item) : List Item :=
  staged.foldl upsertOne store

/-- Lookup of an item by its uniqueness key. -/
def findItem (store : List Item) (ty key : String) : Option Item :=
  store.find? (fun it => it.itemType == ty && it.businessKey == key)

/-- C6 counterexample: upserting a second payload whose status is
inactive leaves the stored status active (the upsert SELECT hard-codes
the status), so status is NOT taken from the second payload. -/
theorem upsert_status_counterexample :
    (findItem (upsertItems (upsertItems []
        [{ itemType := "T", scope := "s1", businessKey := "K", status := "active",
           customProperties := [("a", Value.str "1"), ("b", Value.str "2")],
           embedding := none }])
        [{ itemType := "T", scope := "s2", businessKey := "K", status := "inactive",
           customProperties := [("b", Value.str "3"), ("c", Value.str "4")],
           embedding := none }]) "T" "K").map (fun it => it.status) = some "active" ∧
    ("active" : String) ≠ "inactive" := by
  refine ⟨rfl, by decide⟩

/-- C6 amended: upserting the same (item_type, business_key) twice
stores the jsonb merge of both custom_properties payloads (second
wins on overlap, first-only keys preserved), takes scope and embedding
from the second payload, and sets status to active regardless of the
payload status fields. -/
theorem upsert_merge_amended (i1 i2 : Item)
    (hty : i1.itemType = i2.itemType) (hkey : i1.businessKey = i2.businessKey) :
    upsertItems (upsertItems [] [i1]) [i2] =
      [{ i1 with
         status := "active", scope := i2.scope,
         customProperties := jsonbConcat i1.customProperties i2.customProperties,
         embedding := i2.embedding }] ∧
    (∀ k, lookupJson (jsonbConcat i1.customProperties i2.customProperties) k =
      match lookupJson i2.customProperties k with
      | some v => some v
      | none => lookupJson i1.customProperties k) := by
  constructor
  · show upsertOne (upsertOne [] i1) i2 = _
    unfold upsertOne
    simp [hty, hkey]
  · intro k
    exact jsonbConcat_lookup k i1.customProperties i2.customProperties

/-- Witness for C6 amended on concrete payloads: merged keys, second
payload winning, scope and embedding from the second payload, status
active. -/
theorem upsert_merge_amended_witness :
    upsertItems (upsertItems []
        [{ itemType := "T", scope := "s1", businessKey := "K", status := "active",
           customProperties := [("a", Value.str "1"), ("b", Value.str "2")],
           embedding := none }])
      [{ itemType := "T", scope := "s2", businessKey := "K", status := "inactive",
         customProperties := [("b", Value.str "3"), ("c", Value.str "4")],
         embedding := some [7] }] =
      [{ itemType := "T", scope := "s2", businessKey := "K", status := "active",
         customProperties := jsonbConcat
           [("a", Value.str "1"), ("b", Value.str "2")]
           [("b", Value.str "3"), ("c", Value.str "4")],
         embedding := some [7] }] :=
  (upsert_merge_amended
    { itemType := "T", scope := "s1", businessKey := "K", status := "active",
      customProperties := [("a", Value.str "1"), ("b", Value.str "2")], embedding := none }
    { itemType := "T", scope := "s2", businessKey := "K", status := "inactive",
      customProperties := [("b", Value.str "3"), ("c", Value.str "4")], embedding := some [7] }
    rfl rfl).1

/-- An ingestion_errors row (triage row) as the correction endpoint
sees it. -/
structure IngestionError where
  id : Nat
  jobId : Nat
  originalRowData : List (String × String)
  reasonForFailure : String
  status : String
  correctedData : Option JsonObj
  resolvedBy : Option Int
  resolvedAt : Option Int
deriving DecidableEq, Inhabited

/-- The ingestion_jobs fields the correction touches. -/
structure IngestionJob where
  id : Nat
  status : String
  resolvedRowsCount : Int
deriving DecidableEq, Inhabited

/-- The persisted state the correction endpoint reads and writes. -/
structure DBState where
  errors : List IngestionError
  jobs : List IngestionJob
deriving DecidableEq, Inhabited

/-- UpdateIngestionErrorWithCorrection: set corrected_data, status
pending_revalidation, resolver identity and time on the matching row,
RETURNING it; none models the sqlc :one error when no row matches. -/
def updateErrorWithCorrection (st : DBState) (eid : Nat) (cd : JsonObj)
    (resolvedBy now : Int) : Option (DBState × IngestionError) :=
  match st.errors.find? (fun e => e.id == eid) with
  | none => none
  | some e0 =>
    some ({ st with
            errors := st.errors.map (fun e =>
              if e.id == eid then
                { e0 with
                  correctedData := some cd, status := "pending_revalidation",
                  resolvedBy := some resolvedBy, resolvedAt := some now }
              else e) },
      { e0 with
        correctedData := some cd, status := "pending_revalidation",
        resolvedBy := some resolvedBy, resolvedAt := some now })

/-- IncrementIngestionJobResolvedRows: add one to the resolved counter
of the job the error row references (an UPDATE matching nothing is not
an error). -/
def incrementResolvedRows (st : DBState) (eid : Nat) : DBState :=
  match st.errors.find? (fun e => e.id == eid) with
  | none => st
  | some e =>
    { st with
      jobs := st.jobs.map (fun j =>
        if j.id == e.jobId then { j with resolvedRowsCount := j.resolvedRowsCount + 1 }
        else j) }

/-- The PATCH ingestion-errors handler: a missing corrected_data is
rejected before the transaction; the row update and the counter
increment then run inside one transaction whose begin or commit may
fail (fault flags), any failure rolling the whole state back. The
resolver identity is the placeholder user 1. -/
def updateIngestionError (st : DBState) (eid : Nat) (body : Option JsonObj) (now : Int)
    (beginFail commitFail : Bool) : DBState × Except String IngestionError :=
  match body with
  | none => (st, .error "missing corrected_data in request body")
  | some cd =>
    if beginFail then (st, .error "could not start transaction")
    else
      match updateErrorWithCorrection st eid cd 1 now with
      | none => (st, .error "failed to update ingestion error")
      | some (st2, updated) =>
        if commitFail then (st, .error "could not commit transaction")
        else (incrementResolvedRows st2 eid, .ok updated)

/-- find? over a map that replaces every matching element with a fixed
element still matching the predicate. -/
theorem find?_map_update {α : Type} (p : α → Bool) (f : α → α)
    (hf : ∀ a, p a = true → p (f a) = true) :
    ∀ (l : List α) (a0 : α), l.find? p = some a0 →
      (l.map (fun a => if p a then f a else a)).find? p = some (f a0) := by
  intro l
  induction l with
  | nil => intro a0 h; exact Option.noConfusion h
  | cons x xs ih =>
    intro a0 h
    cases hx : p x with
    | true =>
      rw [List.find?_cons_of_pos _ hx] at h
      injection h with h
      subst h
      rw [List.map_cons, if_pos hx, List.find?_cons_of_pos _ (hf x hx)]
    | false =>
      rw [List.find?_cons_of_neg _ (by simp [hx])] at h
      rw [List.map_cons, if_neg (by simp [hx]), List.find?_cons_of_neg _ (by simp [hx])]
      exact ih a0 h

/-- C7: an accepted correction on an existing triage row stores the
supplied corrected_data, sets the row status to pending_revalidation,
stamps resolver identity and time, and increments the parent job's
resolved_rows_count by exactly one; the row update and the counter
increment land together on success, and on any failure the state is
unchanged. -/
theorem triage_correction_atomic (st : DBState) (eid : Nat) (cd : JsonObj) (now : Int)
    (beginFail commitFail : Bool) (e0 : IngestionError) (j0 : IngestionJob)
    (herr : st.errors.find? (fun e => e.id == eid) = some e0)
    (hjob : st.jobs.find? (fun j => j.id == e0.jobId) = some j0) :
    (beginFail = false → commitFail = false →
      (updateIngestionError st eid (some cd) now beginFail commitFail).2 =
        Except.ok { e0 with
          correctedData := some cd, status := "pending_revalidation",
          resolvedBy := some 1, resolvedAt := some now } ∧
      (updateIngestionError st eid (some cd) now beginFail
          commitFail).1.errors.find? (fun e => e.id == eid) =
        some { e0 with
          correctedData := some cd, status := "pending_revalidation",
          resolvedBy := some 1, resolvedAt := some now } ∧
      (updateIngestionError st eid (some cd) now beginFail
          commitFail).1.jobs.find? (fun j => j.id == e0.jobId) =
        some { j0 with resolvedRowsCount := j0.resolvedRowsCount + 1 }) ∧
    (∀ msg, (updateIngestionError st eid (some cd) now beginFail commitFail).2 =
        Except.error msg →
      (updateIngestionError st eid (some cd) now beginFail commitFail).1 = st) := by
  have hpe0 : (e0.id == eid) = true := by
    have := List.find?_some herr
    simpa using this
  have hupd : updateErrorWithCorrection st eid cd 1 now =
      some ({ st with
              errors := st.errors.map (fun e =>
                if e.id == eid then
                  { e0 with
                    correctedData := some cd, status := "pending_revalidation",
                    resolvedBy := some 1, resolvedAt := some now }
                else e) },
        { e0 with
          correctedData := some cd, status := "pending_revalidation",
          resolvedBy := some 1, resolvedAt := some now }) := by
    unfold updateErrorWithCorrection
    rw [herr]
  have herr2 : (st.errors.map (fun e =>
      if e.id == eid then
        { e0 with
          correctedData := some cd, status := "pending_revalidation",
          resolvedBy := some 1, resolvedAt := some now }
      else e)).find? (fun e => e.id == eid) =
      some { e0 with
        correctedData := some cd, status := "pending_revalidation",
        resolvedBy := some 1, resolvedAt := some now } := by
    have := find?_map_update (fun e => e.id == eid)
      (fun _ => { e0 with
        correctedData := some cd, status := "pending_revalidation",
        resolvedBy := some 1, resolvedAt := some now })
      (fun a _ => by simpa using hpe0) st.errors e0 herr
    simpa using this
  constructor
  · intro hbf hcf
    subst hbf hcf
    unfold updateIngestionError
    dsimp only
    rw [hupd]
    dsimp only
    refine ⟨rfl, ?_, ?_⟩
    · unfold incrementResolvedRows
      rw [herr2]
      dsimp only
      exact herr2
    · unfold incrementResolvedRows
      rw [herr2]
      dsimp only
      have := find?_map_update (fun j => j.id == e0.jobId)
        (fun j => { j with resolvedRowsCount := j.resolvedRowsCount + 1 })
        (fun a ha => by simpa using ha) st.jobs j0 hjob
      simpa using this
  · intro msg hmsg
    unfold updateIngestionError at hmsg ⊢
    cases beginFail with
    | true => rfl
    | false =>
      dsimp only at hmsg ⊢
      rw [hupd] at hmsg ⊢
      dsimp only at hmsg ⊢
      cases commitFail with
      | true => rfl
      | false => exact absurd hmsg (by simp)

/-- Witness for C7: one error row, one parent job, no faults; both
effects land, the counter moving zero to one. -/
theorem triage_correction_atomic_witness :
    (updateIngestionError
        { errors := [{ id := 5, jobId := 7, originalRowData := [], reasonForFailure := "r",
                       status := "new", correctedData := none, resolvedBy := none,
                       resolvedAt := none }],
          jobs := [{ id := 7, status := "COMPLETE_WITH_ISSUES", resolvedRowsCount := 0 }] }
        5 (some [("f", Value.str "v")]) 99 false false).1.jobs.find?
      (fun j => j.id == 7) =
      some { id := 7, status := "COMPLETE_WITH_ISSUES", resolvedRowsCount := 0 + 1 } :=
  ((triage_correction_atomic
      { errors := [{ id := 5, jobId := 7, originalRowData := [], reasonForFailure := "r",
                     status := "new", correctedData := none, resolvedBy := none,
                     resolvedAt := none }],
        jobs := [{ id := 7, status := "COMPLETE_WITH_ISSUES", resolvedRowsCount := 0 }] }
      5 [("f", Value.str "v")] 99 false false
      { id := 5, jobId := 7, originalRowData := [], reasonForFailure := "r",
        status := "new", correctedData := none, resolvedBy := none, resolvedAt := none }
      { id := 7, status := "COMPLETE_WITH_ISSUES", resolvedRowsCount := 0 }
      rfl rfl).1 rfl rfl).2.2

end Chimera
